import Mathlib

/-!
Verification of the multiscale spatial-transcriptomics workflow scripts
(`Stereo_seq_MOSTA_bin3_multiscale.py`, `VisiumHD_2um_CRC_multiscale_workflow.py`).

The scripts orchestrate external library calls; the locally implemented logic is:
coordinate transformation, per-scale rank computation (`calc_scale` around
`scipy.stats.rankdata(-I, method='min')`), rank-table concatenation with a
worst-rank sentinel fill, the `categorize_with_threshold` band classifier,
tile-existence filtering before grid assembly, and row-major grid placement in
`_assemble_grid`.  Python floats are embedded as rationals; the pandas/numpy
tables as association lists indexed by gene name.
-/

namespace SPIXAnalysis

/-- A row of the aggregated rank table, carrying the three band means
`mean_early`, `mean_mid`, `mean_late` computed in `main` (lines 501-503). -/
structure Row where
  mean_early : ℚ
  mean_mid : ℚ
  mean_late : ℚ
deriving DecidableEq

/-- Look up a band mean of a row by its label, mirroring `row['mean_<band>']`. -/
def bandMean (row : Row) (band : String) : ℚ :=
  if band = "early" then row.mean_early
  else if band = "mid" then row.mean_mid
  else if band = "late" then row.mean_late
  else 0

/-- Stable ascending insertion by the numeric component: `x` is inserted before
the first element whose value exceeds or equals it is NOT how Python breaks
ties; Python's `sorted` is stable, which this insertion (insert before `y`
exactly when `x.2 ≤ y.2`, processing elements with `foldr`) reproduces. -/
def insertAsc (x : String × ℚ) : List (String × ℚ) → List (String × ℚ)
  | [] => [x]
  | y :: ys => if x.2 ≤ y.2 then x :: y :: ys else y :: insertAsc x ys

/-- Stable sort of labelled values ascending by value, embedding Python's
`sorted(regions.items(), key=lambda x: x[1])`. -/
def sortRegions (l : List (String × ℚ)) : List (String × ℚ) :=
  l.foldr insertAsc []

/-- Embedding of `categorize_with_threshold` (Stereo script lines 110-123,
VisiumHD script lines 94-107): build the `regions` items in dict insertion
order early, mid, late; sort ascending by value; take the two smallest
`(reg1, val1), (reg2, val2)`; return `reg1` when
`(val2 - val1) / val2 >= threshold_ratio`, else `'mixed'`. -/
def categorize_with_threshold (row : Row) (threshold_ratio : ℚ) : String :=
  match sortRegions [("early", row.mean_early), ("mid", row.mean_mid),
      ("late", row.mean_late)] with
  | (reg1, val1) :: (_, val2) :: _ =>
      if threshold_ratio ≤ (val2 - val1) / val2 then reg1 else "mixed"
  | _ => "mixed"

/-- Smallest of three rationals (specification-side helper). -/
def min3 (a b c : ℚ) : ℚ := min a (min b c)

/-- Median (= second smallest) of three rationals (specification-side helper). -/
def med3 (a b c : ℚ) : ℚ := max (min a b) (min (max a b) c)

/-- The label Python's stable sort puts first for the triple
(early, e), (mid, m), (late, l): `early` wins all ties it is involved in,
`mid` beats `late` on a tie. -/
def smallestLabel (e m l : ℚ) : String :=
  if e ≤ m ∧ e ≤ l then "early" else if m ≤ l then "mid" else "late"

/-- Ranks assigned by `rankdata(-moran['I'], method='min')` in `calc_scale`
(line 106): each gene receives rank 1 plus the number of genes with strictly
larger Moran I (negating I turns descending I into ascending values; method
`min` gives every tie group the smallest rank of the group). -/
def rankMin (morans : List (String × ℚ)) : List (String × ℕ) :=
  morans.map (fun p => (p.1, 1 + (morans.filter (fun q => p.2 < q.2)).length))

/-- Embedding of the tail of `calc_scale` (lines 101-107): when the pseudo-bulk
Moran analysis yields zero rows, the function warns and returns an empty
table; otherwise it returns the single `rank_<scale_id>` column computed by
`rankdata(-I, method='min')`.  The external segmentation and Moran calls are
abstracted as the input list of (gene, Moran I) rows. -/
def calc_scale (morans : List (String × ℚ)) : List (String × ℕ) :=
  if morans.isEmpty then [] else rankMin morans

/-- Embedding of `rank_tables = [df for df in results if not df.empty]`
(line 476 of `main`). -/
def nonEmptyTables (results : List (List (String × ℕ))) :
    List (List (String × ℕ)) :=
  results.filter (fun df => !df.isEmpty)

/-- Largest rank appearing in one per-scale table (0 for an empty table). -/
def tableMaxRank (tbl : List (String × ℕ)) : ℕ :=
  (tbl.map Prod.snd).foldr max 0

/-- Embedding of `max_rank = int(rank_mat.max().max())` (line 478): the
largest rank observed anywhere across the concatenated per-scale columns. -/
def maxObservedRank (tables : List (List (String × ℕ))) : ℕ :=
  (tables.map tableMaxRank).foldr max 0

/-- One cell of the outer join `pd.concat(rank_tables, axis=1, join='outer')`
(line 477): the rank a per-scale table assigns to a gene, when the table has a
row for that gene. -/
def lookupRank (tbl : List (String × ℕ)) (g : String) : Option ℕ :=
  (tbl.find? (fun p => p.1 == g)).map Prod.snd

/-- Embedding of `rank_mat.fillna(max_rank + 1)` (line 479): a joined cell
holds the observed rank where present and the sentinel
`maxObservedRank + 1` otherwise. -/
def filledCell (tables : List (List (String × ℕ))) (tbl : List (String × ℕ))
    (g : String) : ℕ :=
  (lookupRank tbl g).getD (maxObservedRank tables + 1)

/-- Embedding of `ordered_tiles` in `build_grid_for_group_parallel`
(line 240): the expected tile path of each gene, in the order of the original
gene list (workers may finish in any order; the path list fixes the order). -/
def ordered_tiles (tmp_dir : String) (genes : List String) : List String :=
  genes.map (fun g => tmp_dir ++ "/" ++ g ++ ".png")

/-- Embedding of `existing_tiles = [p for p in ordered_tiles if
os.path.exists(p)]` (line 256); the filesystem is abstracted as the
predicate `fs_exists`. -/
def existing_tiles (fs_exists : String → Bool) (tiles : List String) :
    List String :=
  tiles.filter fs_exists

/-- Row count of the canvas in `_assemble_grid` (line 203):
`rows = math.ceil(len(tile_paths) / cols) if tile_paths else 1`. -/
def gridRowCount (tile_paths : List String) (cols : ℕ) : ℕ :=
  if tile_paths.isEmpty then 1
  else Nat.ceil ((tile_paths.length : ℚ) / (cols : ℚ))

/-- Content of cell (r, c) after the placement loop of `_assemble_grid`
(lines 208-216): the loop walks cells row-major with a running index `i`, so
cell (r, c) is reached with `i = r * cols + c`; it draws tile `i` there when
`i < len(tile_paths)` and otherwise leaves the cell empty (every axis is
turned off first). -/
def gridCell (tile_paths : List String) (cols r c : ℕ) : Option String :=
  if h : r * cols + c < tile_paths.length then
    some (tile_paths.get ⟨r * cols + c, h⟩)
  else none

/-- Outcome of the per-gene render worker: which PNG was written at the
returned path. -/
inductive RenderResult where
  | placeholder (path : String)
  | rendered (path : String)
deriving DecidableEq

/-- Embedding of `_render_gene_png_worker` (lines 142-197): raises
`ValueError` when `adata_global` is `None`; when the gene is not among the
dataset var names (`str(gene) not in set(map(str, adata.var_names))`), writes
a placeholder not-in-var_names figure to `out_png` and returns `out_png`;
otherwise renders the gene expression image and returns `out_png`.  The
dataset is abstracted as its list of var names. -/
def render_gene_png_worker (adata_global : Option (List String)) (gene : String)
    (out_png : String) : Except String RenderResult :=
  match adata_global with
  | none => Except.error "adata_global must be provided"
  | some var_names =>
      if !(var_names.contains gene) then
        Except.ok (RenderResult.placeholder out_png)
      else
        Except.ok (RenderResult.rendered out_png)

/-- Maximum entry of a column, mirroring numpy `.max()` on a nonempty array
(the empty list, on which numpy raises, is mapped to 0). -/
def colMax (l : List ℚ) : ℚ :=
  match l with
  | [] => 0
  | a :: t => t.foldr max a

/-- Embedding of `transform_coordinates` (lines 44-58): swap the two columns
of the spatial table, then replace column 1 by its maximum minus itself, then
replace column 0 by its maximum minus itself.  Rows are
(column 0, column 1) pairs. -/
def transform_coordinates (coords : List (ℚ × ℚ)) : List (ℚ × ℚ) :=
  let swapped := coords.map (fun p => (p.2, p.1))
  let flipped1 := swapped.map
    (fun p => (p.1, colMax (swapped.map Prod.snd) - p.2))
  flipped1.map (fun p => (colMax (flipped1.map Prod.fst) - p.1, p.2))

lemma sortRegions_three (e m l : ℚ) :
    sortRegions [("early", e), ("mid", m), ("late", l)] =
      if m ≤ l then
        (if e ≤ m then [("early", e), ("mid", m), ("late", l)]
         else if e ≤ l then [("mid", m), ("early", e), ("late", l)]
         else [("mid", m), ("late", l), ("early", e)])
      else
        (if e ≤ l then [("early", e), ("late", l), ("mid", m)]
         else if e ≤ m then [("late", l), ("early", e), ("mid", m)]
         else [("late", l), ("mid", m), ("early", e)]) := by
  rcases le_or_lt m l with hml | hml
  · rcases le_or_lt e m with hem | hem
    · simp [sortRegions, insertAsc, hml, hem]
    · have hem2 : ¬ e ≤ m := not_le.mpr hem
      rcases le_or_lt e l with hel | hel
      · simp [sortRegions, insertAsc, hml, hem2, hel]
      · have hel2 : ¬ e ≤ l := not_le.mpr hel
        simp [sortRegions, insertAsc, hml, hem2, hel2]
  · have hml2 : ¬ m ≤ l := not_le.mpr hml
    rcases le_or_lt e l with hel | hel
    · simp [sortRegions, insertAsc, hml2, hel]
    · have hel2 : ¬ e ≤ l := not_le.mpr hel
      rcases le_or_lt e m with hem | hem
      · simp [sortRegions, insertAsc, hml2, hel2, hem]
      · have hem2 : ¬ e ≤ m := not_le.mpr hem
        simp [sortRegions, insertAsc, hml2, hel2, hem2]

/-- Characterization of the classifier: it compares the threshold against the
relative gap between the median and minimum of the three band means, and on
success returns the stable-sort-first label of the smallest mean. -/
lemma categorize_eq (e m l t : ℚ) :
    categorize_with_threshold ⟨e, m, l⟩ t =
      if t ≤ (med3 e m l - min3 e m l) / med3 e m l then smallestLabel e m l
      else "mixed" := by
  rcases le_or_lt m l with hml | hml <;>
    rcases le_or_lt e m with hem | hem <;>
      rcases le_or_lt e l with hel | hel
  · -- e ≤ m, m ≤ l, e ≤ l : sorted [E, M, L]
    have hmin : min3 e m l = e := by
      simp only [min3, min_def]; split_ifs <;> linarith
    have hmed : med3 e m l = m := by
      simp only [med3, min_def, max_def]; split_ifs <;> linarith
    rw [hmin, hmed]
    simp [categorize_with_threshold, sortRegions_three, smallestLabel, hml, hem, hel]
  · -- impossible: e ≤ m ≤ l yet l < e
    exact absurd (hem.trans hml) (not_le.mpr hel)
  · -- m < e ≤ l, m ≤ l : sorted [M, E, L]
    have hem2 : ¬ e ≤ m := not_le.mpr hem
    have hmin : min3 e m l = m := by
      simp only [min3, min_def]; split_ifs <;> linarith
    have hmed : med3 e m l = e := by
      simp only [med3, min_def, max_def]; split_ifs <;> linarith
    rw [hmin, hmed]
    simp [categorize_with_threshold, sortRegions_three, smallestLabel, hml, hem2, hel]
  · -- m ≤ l < e : sorted [M, L, E]
    have hem2 : ¬ e ≤ m := not_le.mpr hem
    have hel2 : ¬ e ≤ l := not_le.mpr hel
    have hmin : min3 e m l = m := by
      simp only [min3, min_def]; split_ifs <;> linarith
    have hmed : med3 e m l = l := by
      simp only [med3, min_def, max_def]; split_ifs <;> linarith
    rw [hmin, hmed]
    simp [categorize_with_threshold, sortRegions_three, smallestLabel, hml, hem2, hel2]
  · -- e ≤ l < m : sorted [E, L, M]
    have hml2 : ¬ m ≤ l := not_le.mpr hml
    have hmin : min3 e m l = e := by
      simp only [min3, min_def]; split_ifs <;> linarith
    have hmed : med3 e m l = l := by
      simp only [med3, min_def, max_def]; split_ifs <;> linarith
    rw [hmin, hmed]
    simp [categorize_with_threshold, sortRegions_three, smallestLabel, hml2, hem, hel]
  · -- l < e ≤ m, l < m : sorted [L, E, M]
    have hml2 : ¬ m ≤ l := not_le.mpr hml
    have hel2 : ¬ e ≤ l := not_le.mpr hel
    have hmin : min3 e m l = l := by
      simp only [min3, min_def]; split_ifs <;> linarith
    have hmed : med3 e m l = e := by
      simp only [med3, min_def, max_def]; split_ifs <;> linarith
    rw [hmin, hmed]
    simp [categorize_with_threshold, sortRegions_three, smallestLabel, hml2, hem, hel2]
  · -- impossible: l < m < e yet e ≤ l
    exact absurd (hml.trans hem) (not_lt.mpr hel)
  · -- l < m < e : sorted [L, M, E]
    have hml2 : ¬ m ≤ l := not_le.mpr hml
    have hem2 : ¬ e ≤ m := not_le.mpr hem
    have hel2 : ¬ e ≤ l := not_le.mpr hel
    have hmin : min3 e m l = l := by
      simp only [min3, min_def]; split_ifs <;> linarith
    have hmed : med3 e m l = m := by
      simp only [med3, min_def, max_def]; split_ifs <;> linarith
    rw [hmin, hmed]
    simp [categorize_with_threshold, sortRegions_three, smallestLabel, hml2, hem2, hel2]

lemma bandMean_early (r : Row) : bandMean r "early" = r.mean_early := rfl

lemma bandMean_mid (r : Row) : bandMean r "mid" = r.mean_mid := rfl

lemma bandMean_late (r : Row) : bandMean r "late" = r.mean_late := rfl

lemma smallestLabel_ne_mixed (e m l : ℚ) : smallestLabel e m l ≠ "mixed" := by
  simp only [smallestLabel]
  split_ifs <;> simp

lemma smallestLabel_mem (e m l : ℚ) :
    smallestLabel e m l ∈ (["early", "mid", "late"] : List String) := by
  simp only [smallestLabel]
  split_ifs <;> simp

lemma bandMean_smallestLabel (e m l : ℚ) :
    bandMean ⟨e, m, l⟩ (smallestLabel e m l) = min3 e m l := by
  rcases le_or_lt m l with hml | hml <;> rcases le_or_lt e m with hem | hem <;>
    rcases le_or_lt e l with hel | hel
  · have hmin : min3 e m l = e := by
      simp only [min3, min_def]; split_ifs <;> linarith
    simp [smallestLabel, bandMean, hem, hel, hmin]
  · exact absurd (hem.trans hml) (not_le.mpr hel)
  · have hem2 : ¬ e ≤ m := not_le.mpr hem
    have hmin : min3 e m l = m := by
      simp only [min3, min_def]; split_ifs <;> linarith
    simp [smallestLabel, bandMean, hml, hem2, hmin]
  · have hem2 : ¬ e ≤ m := not_le.mpr hem
    have hmin : min3 e m l = m := by
      simp only [min3, min_def]; split_ifs <;> linarith
    simp [smallestLabel, bandMean, hml, hem2, hmin]
  · have hmin : min3 e m l = e := by
      simp only [min3, min_def]; split_ifs <;> linarith
    simp [smallestLabel, bandMean, hem, hel, hmin]
  · have hel2 : ¬ e ≤ l := not_le.mpr hel
    have hml2 : ¬ m ≤ l := not_le.mpr hml
    have hmin : min3 e m l = l := by
      simp only [min3, min_def]; split_ifs <;> linarith
    simp [smallestLabel, bandMean, hel2, hml2, hmin]
  · exact absurd (hml.trans hem) (not_lt.mpr hel)
  · have hem2 : ¬ e ≤ m := not_le.mpr hem
    have hml2 : ¬ m ≤ l := not_le.mpr hml
    have hmin : min3 e m l = l := by
      simp only [min3, min_def]; split_ifs <;> linarith
    simp [smallestLabel, bandMean, hem2, hml2, hmin]

/-- C1: for three positive band means and threshold t,
`categorize_with_threshold` returns the label of the smallest-mean band
exactly when the relative gap between the two smallest means (val2 - val1) /
val2 reaches t, and "mixed" otherwise; in particular means (1, 20, 21) with
ratio 1/2 give "early". -/
theorem C1_categorize_threshold_rule (e m l t : ℚ)
    (he : 0 < e) (hm : 0 < m) (hl : 0 < l) :
    (t ≤ (med3 e m l - min3 e m l) / med3 e m l →
      bandMean ⟨e, m, l⟩ (categorize_with_threshold ⟨e, m, l⟩ t) = min3 e m l ∧
      categorize_with_threshold ⟨e, m, l⟩ t ≠ "mixed") ∧
    ((med3 e m l - min3 e m l) / med3 e m l < t →
      categorize_with_threshold ⟨e, m, l⟩ t = "mixed") ∧
    categorize_with_threshold ⟨1, 20, 21⟩ (1 / 2) = "early" := by
  refine ⟨fun ht => ?_, fun ht => ?_, ?_⟩
  · rw [categorize_eq, if_pos ht]
    exact ⟨bandMean_smallestLabel e m l, smallestLabel_ne_mixed e m l⟩
  · rw [categorize_eq, if_neg (not_le.mpr ht)]
  · norm_num [categorize_with_threshold, sortRegions, insertAsc]

/-- Witness for C1: instantiated at means (1, 20, 21) and ratio 1/2, where
the relative gap is 19/20 ≥ 1/2 and the returned label is "early". -/
theorem C1_categorize_threshold_rule_witness :
    categorize_with_threshold ⟨1, 20, 21⟩ (1 / 2) = "early" :=
  (C1_categorize_threshold_rule 1 20 21 (1 / 2) (by norm_num) (by norm_num)
    (by norm_num)).2.2

/-- C3: the label depends only on the two smallest band means: changing the
value of the strictly largest band (keeping it strictly largest on both
sides and the other two bands untouched) does not change the result; and
means (1, 3/2, 9) with ratio 93/100 give "mixed". -/
theorem C3_largest_ignored (r r2 : Row) (t : ℚ) (b : String)
    (hb : b ∈ (["early", "mid", "late"] : List String))
    (hagree : ∀ b2 ∈ (["early", "mid", "late"] : List String), b2 ≠ b →
      bandMean r b2 = bandMean r2 b2)
    (hmax : ∀ b2 ∈ (["early", "mid", "late"] : List String), b2 ≠ b →
      bandMean r b2 < bandMean r b)
    (hmax2 : ∀ b2 ∈ (["early", "mid", "late"] : List String), b2 ≠ b →
      bandMean r2 b2 < bandMean r2 b) :
    categorize_with_threshold r t = categorize_with_threshold r2 t ∧
    categorize_with_threshold ⟨1, 3 / 2, 9⟩ (93 / 100) = "mixed" := by
  constructor
  · obtain ⟨e, m, l⟩ := r
    obtain ⟨e2, m2, l2⟩ := r2
    have hb3 : b = "early" ∨ b = "mid" ∨ b = "late" := by simpa using hb
    rcases hb3 with hbe | hbm | hbl
    · subst hbe
      have hM : m = m2 := by
        have h := hagree "mid" (by simp) (by simp)
        simpa [bandMean] using h
      have hL : l = l2 := by
        have h := hagree "late" (by simp) (by simp)
        simpa [bandMean] using h
      have hme : m < e := by
        have h := hmax "mid" (by simp) (by simp)
        simpa [bandMean] using h
      have hle : l < e := by
        have h := hmax "late" (by simp) (by simp)
        simpa [bandMean] using h
      have hme2 : m2 < e2 := by
        have h := hmax2 "mid" (by simp) (by simp)
        simpa [bandMean] using h
      have hle2 : l2 < e2 := by
        have h := hmax2 "late" (by simp) (by simp)
        simpa [bandMean] using h
      subst hM; subst hL
      rw [categorize_eq, categorize_eq]
      have h1 : min3 e m l = min3 e2 m l := by
        simp only [min3, min_def]; split_ifs <;> linarith
      have h2 : med3 e m l = med3 e2 m l := by
        simp only [med3, min_def, max_def]; split_ifs <;> linarith
      have h3 : smallestLabel e m l = smallestLabel e2 m l := by
        simp [smallestLabel, not_le.mpr hme, not_le.mpr hme2]
      rw [h1, h2, h3]
    · subst hbm
      have hE : e = e2 := by
        have h := hagree "early" (by simp) (by simp)
        simpa [bandMean] using h
      have hL : l = l2 := by
        have h := hagree "late" (by simp) (by simp)
        simpa [bandMean] using h
      have hem : e < m := by
        have h := hmax "early" (by simp) (by simp)
        simpa [bandMean] using h
      have hlm : l < m := by
        have h := hmax "late" (by simp) (by simp)
        simpa [bandMean] using h
      have hem2 : e2 < m2 := by
        have h := hmax2 "early" (by simp) (by simp)
        simpa [bandMean] using h
      have hlm2 : l2 < m2 := by
        have h := hmax2 "late" (by simp) (by simp)
        simpa [bandMean] using h
      subst hE; subst hL
      rw [categorize_eq, categorize_eq]
      have h1 : min3 e m l = min3 e m2 l := by
        simp only [min3, min_def]; split_ifs <;> linarith
      have h2 : med3 e m l = med3 e m2 l := by
        simp only [med3, min_def, max_def]; split_ifs <;> linarith
      have h3 : smallestLabel e m l = smallestLabel e m2 l := by
        by_cases hel : e ≤ l
        · simp [smallestLabel, hel, le_of_lt hem, le_of_lt hem2]
        · simp [smallestLabel, hel, not_le.mpr hlm, not_le.mpr hlm2]
      rw [h1, h2, h3]
    · subst hbl
      have hE : e = e2 := by
        have h := hagree "early" (by simp) (by simp)
        simpa [bandMean] using h
      have hM : m = m2 := by
        have h := hagree "mid" (by simp) (by simp)
        simpa [bandMean] using h
      have hel : e < l := by
        have h := hmax "early" (by simp) (by simp)
        simpa [bandMean] using h
      have hml : m < l := by
        have h := hmax "mid" (by simp) (by simp)
        simpa [bandMean] using h
      have hel2 : e2 < l2 := by
        have h := hmax2 "early" (by simp) (by simp)
        simpa [bandMean] using h
      have hml2 : m2 < l2 := by
        have h := hmax2 "mid" (by simp) (by simp)
        simpa [bandMean] using h
      subst hE; subst hM
      rw [categorize_eq, categorize_eq]
      have h1 : min3 e m l = min3 e m l2 := by
        simp only [min3, min_def]; split_ifs <;> linarith
      have h2 : med3 e m l = med3 e m l2 := by
        simp only [med3, min_def, max_def]; split_ifs <;> linarith
      have h3 : smallestLabel e m l = smallestLabel e m l2 := by
        by_cases hem : e ≤ m
        · simp [smallestLabel, hem, le_of_lt hel, le_of_lt hel2]
        · simp [smallestLabel, hem, le_of_lt hml, le_of_lt hml2]
      rw [h1, h2, h3]
  · norm_num [categorize_with_threshold, sortRegions, insertAsc]

/-- Witness for C3: rows (1, 2, 5) and (1, 2, 7) differ only in the strictly
largest band mean (late), so they receive the same label. -/
theorem C3_largest_ignored_witness :
    categorize_with_threshold ⟨1, 2, 5⟩ (1 / 2) =
      categorize_with_threshold ⟨1, 2, 7⟩ (1 / 2) ∧
    categorize_with_threshold ⟨1, 3 / 2, 9⟩ (93 / 100) = "mixed" :=
  C3_largest_ignored ⟨1, 2, 5⟩ ⟨1, 2, 7⟩ (1 / 2) "late" (by simp)
    (by
      intro b2 hb2 hne
      simp only [List.mem_cons, List.not_mem_nil, or_false] at hb2
      rcases hb2 with h | h | h
      · subst h; simp [bandMean]
      · subst h; simp [bandMean]
      · subst h; exact absurd rfl hne)
    (by
      intro b2 hb2 hne
      simp only [List.mem_cons, List.not_mem_nil, or_false] at hb2
      rcases hb2 with h | h | h
      · subst h; norm_num [bandMean_early, bandMean_late]
      · subst h; norm_num [bandMean_mid, bandMean_late]
      · subst h; exact absurd rfl hne)
    (by
      intro b2 hb2 hne
      simp only [List.mem_cons, List.not_mem_nil, or_false] at hb2
      rcases hb2 with h | h | h
      · subst h; norm_num [bandMean_early, bandMean_late]
      · subst h; norm_num [bandMean_mid, bandMean_late]
      · subst h; exact absurd rfl hne)

/-- C4 counterexample: with band means (1, 11/10, 10) and ratio 1/2 the
relative gap of the two smallest means is (11/10 - 1) / (11/10) = 1/11 < 1/2,
so `categorize_with_threshold` does NOT return the smallest band's label
"early" as the claim states. -/
theorem C4_counterexample :
    ¬ (categorize_with_threshold ⟨1, 11 / 10, 10⟩ (1 / 2) = "early") := by
  have h : categorize_with_threshold ⟨1, 11 / 10, 10⟩ (1 / 2) = "mixed" := by
    norm_num [categorize_with_threshold, sortRegions, insertAsc]
  rw [h]
  decide

/-- C4 amended: with band means (1, 11/10, 10) and threshold ratio 1/2 the
function returns "mixed", because the relative gap of the two smallest means,
(1.1 - 1.0) / 1.1 = 1/11, is below the ratio 1/2. -/
theorem C4_amended_mixed :
    categorize_with_threshold ⟨1, 11 / 10, 10⟩ (1 / 2) = "mixed" := by
  norm_num [categorize_with_threshold, sortRegions, insertAsc]

/-- C10: when the three band means are all at least 1 (as in the pipeline,
where each is a mean of ranks ≥ 1 or of the sentinel), the second-smallest
mean is at least 1, hence strictly positive (so the division in
`categorize_with_threshold` never divides by zero), and the result is one of
the four labels. -/
theorem C10_labels_total (r : Row) (t : ℚ)
    (h1 : 1 ≤ r.mean_early) (h2 : 1 ≤ r.mean_mid) (h3 : 1 ≤ r.mean_late) :
    1 ≤ med3 r.mean_early r.mean_mid r.mean_late ∧
    0 < med3 r.mean_early r.mean_mid r.mean_late ∧
    categorize_with_threshold r t ∈
      (["early", "mid", "late", "mixed"] : List String) := by
  obtain ⟨e, m, l⟩ := r
  simp only at h1 h2 h3
  have hmed : 1 ≤ med3 e m l := by
    simp only [med3, min_def, max_def]; split_ifs <;> linarith
  refine ⟨hmed, lt_of_lt_of_le one_pos hmed, ?_⟩
  rw [categorize_eq]
  split_ifs with ht
  · have h := smallestLabel_mem e m l
    simp only [List.mem_cons, List.not_mem_nil, or_false] at h ⊢
    tauto
  · simp

/-- Witness for C10: at the row (1, 2, 3) with threshold 1/2 the median mean
is 2 ≥ 1 and the returned label is among the four labels. -/
theorem C10_labels_total_witness :
    1 ≤ med3 (1 : ℚ) 2 3 ∧ 0 < med3 (1 : ℚ) 2 3 ∧
    categorize_with_threshold ⟨1, 2, 3⟩ (1 / 2) ∈
      (["early", "mid", "late", "mixed"] : List String) :=
  C10_labels_total ⟨1, 2, 3⟩ (1 / 2) (by norm_num) (by norm_num) (by norm_num)

/-- C2: for tables produced by the parallel sweep (`calc_scale` per scale),
only the non-empty ones are joined; every cell of the sentinel-filled table
for a surviving scale column and any gene is either the observed rank of
that gene at that scale — a positive integer — or exactly
`maxObservedRank + 1`, and never null (`filledCell` is total). -/
theorem C2_sentinel_fill (ms : List (List (String × ℚ)))
    (tbl : List (String × ℕ)) (g : String)
    (htbl : tbl ∈ nonEmptyTables (ms.map calc_scale)) :
    (∃ r, lookupRank tbl g = some r ∧ 1 ≤ r ∧
      filledCell (nonEmptyTables (ms.map calc_scale)) tbl g = r) ∨
    (lookupRank tbl g = none ∧
      filledCell (nonEmptyTables (ms.map calc_scale)) tbl g =
        maxObservedRank (nonEmptyTables (ms.map calc_scale)) + 1) := by
  cases hfind : lookupRank tbl g with
  | none =>
      right
      exact ⟨rfl, by simp [filledCell, hfind]⟩
  | some r =>
      left
      refine ⟨r, rfl, ?_, by simp [filledCell, hfind]⟩
      have htbl2 : tbl ∈ ms.map calc_scale := (List.mem_filter.mp htbl).1
      obtain ⟨m, _hm, hcalc⟩ := List.mem_map.mp htbl2
      obtain ⟨p, hp, hpr⟩ := Option.map_eq_some'.mp hfind
      have hmem : p ∈ tbl := List.mem_of_find?_eq_some hp
      rw [← hcalc] at hmem
      simp only [calc_scale] at hmem
      split at hmem
      · exact absurd hmem (List.not_mem_nil p)
      · obtain ⟨q, _hq, hqp⟩ := List.mem_map.mp hmem
        rw [← hpr, ← hqp]
        exact Nat.le_add_right 1 _

/-- Witness for C2: two Moran tables, the second empty; the surviving scale
column assigns gene g1 the observed rank 1, a positive integer. -/
theorem C2_sentinel_fill_witness :
    (∃ r, lookupRank (calc_scale [("g1", (2 : ℚ)), ("g2", 1)]) "g1" = some r ∧
      1 ≤ r ∧
      filledCell (nonEmptyTables ([[("g1", (2 : ℚ)), ("g2", 1)], []].map
        calc_scale)) (calc_scale [("g1", (2 : ℚ)), ("g2", 1)]) "g1" = r) ∨
    (lookupRank (calc_scale [("g1", (2 : ℚ)), ("g2", 1)]) "g1" = none ∧
      filledCell (nonEmptyTables ([[("g1", (2 : ℚ)), ("g2", 1)], []].map
        calc_scale)) (calc_scale [("g1", (2 : ℚ)), ("g2", 1)]) "g1" =
        maxObservedRank (nonEmptyTables ([[("g1", (2 : ℚ)), ("g2", 1)], []].map
          calc_scale)) + 1) :=
  C2_sentinel_fill [[("g1", (2 : ℚ)), ("g2", 1)], []]
    (calc_scale [("g1", (2 : ℚ)), ("g2", 1)]) "g1"
    (by norm_num [nonEmptyTables, calc_scale, rankMin, List.filter])

/-- C5: an empty pseudo-bulk Moran result makes `calc_scale` return the empty
table (after a warning) rather than raising, the empty table is excluded by
the non-empty filter before concatenation, and every table surviving the
filter is non-empty. -/
theorem C5_empty_scale_skipped (morans : List (String × ℚ))
    (results : List (List (String × ℕ))) (h : morans.isEmpty = true) :
    calc_scale morans = [] ∧
    calc_scale morans ∉ nonEmptyTables results ∧
    ∀ tbl ∈ nonEmptyTables results, tbl ≠ [] := by
  have hc : calc_scale morans = [] := by simp [calc_scale, h]
  refine ⟨hc, ?_, ?_⟩
  · rw [hc]
    intro hmem
    have hp := (List.mem_filter.mp hmem).2
    simp [nonEmptyTables] at hp
  · intro tbl htbl hEq
    have hp := (List.mem_filter.mp htbl).2
    rw [hEq] at hp
    simp at hp

/-- Witness for C5: the empty Moran table yields an empty rank table that is
excluded from the non-empty tables of a sample results list. -/
theorem C5_empty_scale_skipped_witness :
    calc_scale ([] : List (String × ℚ)) = [] ∧
    calc_scale ([] : List (String × ℚ)) ∉
      nonEmptyTables [[("g", 1)], []] ∧
    ∀ tbl ∈ nonEmptyTables [[("g", 1)], []], tbl ≠ [] :=
  C5_empty_scale_skipped ([] : List (String × ℚ)) [[("g", 1)], []] rfl

/-- C6: `build_grid_for_group_parallel` keeps exactly the tile paths whose
files exist, in the order of the original gene list (the kept list is a
sublist of the ordered expected paths); with 5 expected tiles of which the
3rd is absent, the assembled sequence is tiles 1, 2, 4, 5 in consecutive
grid cells with no blank slot reserved for the missing one. -/
theorem C6_missing_tiles_compacted (fs : String → Bool) (tmp : String)
    (genes : List String) :
    (existing_tiles fs (ordered_tiles tmp genes)).Sublist
      (ordered_tiles tmp genes) ∧
    (∀ p, p ∈ existing_tiles fs (ordered_tiles tmp genes) ↔
      p ∈ ordered_tiles tmp genes ∧ fs p = true) ∧
    existing_tiles (fun p => p != "tiles/g3.png")
        (ordered_tiles "tiles" ["g1", "g2", "g3", "g4", "g5"]) =
      ["tiles/g1.png", "tiles/g2.png", "tiles/g4.png", "tiles/g5.png"] ∧
    (gridCell (existing_tiles (fun p => p != "tiles/g3.png")
        (ordered_tiles "tiles" ["g1", "g2", "g3", "g4", "g5"])) 5 0 0 =
          some "tiles/g1.png" ∧
      gridCell (existing_tiles (fun p => p != "tiles/g3.png")
        (ordered_tiles "tiles" ["g1", "g2", "g3", "g4", "g5"])) 5 0 1 =
          some "tiles/g2.png" ∧
      gridCell (existing_tiles (fun p => p != "tiles/g3.png")
        (ordered_tiles "tiles" ["g1", "g2", "g3", "g4", "g5"])) 5 0 2 =
          some "tiles/g4.png" ∧
      gridCell (existing_tiles (fun p => p != "tiles/g3.png")
        (ordered_tiles "tiles" ["g1", "g2", "g3", "g4", "g5"])) 5 0 3 =
          some "tiles/g5.png" ∧
      gridCell (existing_tiles (fun p => p != "tiles/g3.png")
        (ordered_tiles "tiles" ["g1", "g2", "g3", "g4", "g5"])) 5 0 4 =
          none) := by
  refine ⟨List.filter_sublist _, fun p => List.mem_filter, ?_, ?_⟩
  · decide
  · decide

/-- C7: for non-empty tiles and a positive column count, `_assemble_grid`
uses ceil(n / cols) rows of cols columns, places tile i at row i / cols and
column i % cols (row-major) with every tile row inside the canvas, leaves
every cell past the last tile empty, and 7 tiles at cols = 5 give a 2-row
canvas with 3 empty cells (independently of tile image dimensions, which the
embedding does not even consult). -/
theorem C7_grid_layout (tiles : List String) (cols : ℕ) (hne : tiles ≠ [])
    (hc : 0 < cols) :
    gridRowCount tiles cols = Nat.ceil ((tiles.length : ℚ) / (cols : ℚ)) ∧
    (∀ i (h : i < tiles.length),
      gridCell tiles cols (i / cols) (i % cols) = some (tiles.get ⟨i, h⟩) ∧
      i / cols < gridRowCount tiles cols) ∧
    (∀ r c, tiles.length ≤ r * cols + c → gridCell tiles cols r c = none) ∧
    gridRowCount ["t1", "t2", "t3", "t4", "t5", "t6", "t7"] 5 = 2 ∧
    ((List.range 2).map (fun r =>
      ((List.range 5).filter (fun c =>
        (gridCell ["t1", "t2", "t3", "t4", "t5", "t6", "t7"] 5 r c).isNone)).length)).sum
      = 3 := by
  have hrows : gridRowCount tiles cols =
      Nat.ceil ((tiles.length : ℚ) / (cols : ℚ)) := by
    cases tiles with
    | nil => exact absurd rfl hne
    | cons a t => rfl
  have hcover : tiles.length ≤ gridRowCount tiles cols * cols := by
    rw [hrows]
    have h1 : ((tiles.length : ℚ) / (cols : ℚ)) ≤
        (Nat.ceil ((tiles.length : ℚ) / (cols : ℚ)) : ℚ) :=
      Nat.le_ceil _
    have hcq : (0 : ℚ) < (cols : ℚ) := by exact_mod_cast hc
    have h2 : (tiles.length : ℚ) ≤
        (Nat.ceil ((tiles.length : ℚ) / (cols : ℚ)) : ℚ) * (cols : ℚ) :=
      (div_le_iff hcq).mp h1
    exact_mod_cast h2
  refine ⟨hrows, fun i h => ⟨?_, ?_⟩, fun r c hrc => ?_, ?_, ?_⟩
  · have key : i / cols * cols + i % cols = i := by
      rw [Nat.mul_comm]
      exact Nat.div_add_mod i cols
    simp only [gridCell, key]
    rw [dif_pos h]
  · rw [Nat.div_lt_iff_lt_mul hc]
    exact lt_of_lt_of_le h hcover
  · simp only [gridCell]
    rw [dif_neg (not_lt.mpr hrc)]
  · have : Nat.ceil ((7 : ℚ) / (5 : ℚ)) = 2 := by
      rw [Nat.ceil_eq_iff (by norm_num)]
      norm_num
    simpa [gridRowCount] using this
  · decide

/-- Witness for C7: the 7-tile, 5-column instance of the layout theorem. -/
theorem C7_grid_layout_witness :
    gridRowCount ["t1", "t2", "t3", "t4", "t5", "t6", "t7"] 5 =
      Nat.ceil ((["t1", "t2", "t3", "t4", "t5", "t6", "t7"].length : ℚ) /
        ((5 : ℕ) : ℚ)) ∧
    (∀ i (h : i < ["t1", "t2", "t3", "t4", "t5", "t6", "t7"].length),
      gridCell ["t1", "t2", "t3", "t4", "t5", "t6", "t7"] 5 (i / 5) (i % 5) =
        some (["t1", "t2", "t3", "t4", "t5", "t6", "t7"].get ⟨i, h⟩) ∧
      i / 5 < gridRowCount ["t1", "t2", "t3", "t4", "t5", "t6", "t7"] 5) ∧
    (∀ r c, ["t1", "t2", "t3", "t4", "t5", "t6", "t7"].length ≤ r * 5 + c →
      gridCell ["t1", "t2", "t3", "t4", "t5", "t6", "t7"] 5 r c = none) ∧
    gridRowCount ["t1", "t2", "t3", "t4", "t5", "t6", "t7"] 5 = 2 ∧
    ((List.range 2).map (fun r =>
      ((List.range 5).filter (fun c =>
        (gridCell ["t1", "t2", "t3", "t4", "t5", "t6", "t7"] 5 r c).isNone)).length)).sum
      = 3 :=
  C7_grid_layout ["t1", "t2", "t3", "t4", "t5", "t6", "t7"] 5
    (by decide) (by decide)

/-- C8: a gene absent from the dataset var names makes the per-gene render
worker write the placeholder image to the gene's out path and return that
path (an ok result carrying out_png), instead of raising. -/
theorem C8_missing_gene_placeholder (var_names : List String)
    (gene out_png : String) (h : gene ∉ var_names) :
    render_gene_png_worker (some var_names) gene out_png =
      Except.ok (RenderResult.placeholder out_png) := by
  simp [render_gene_png_worker, h]

/-- Witness for C8: gene C is not among var names A, B, so the worker returns
the placeholder at the out path. -/
theorem C8_missing_gene_placeholder_witness :
    render_gene_png_worker (some ["A", "B"]) "C" "out/C.png" =
      Except.ok (RenderResult.placeholder "out/C.png") :=
  C8_missing_gene_placeholder ["A", "B"] "C" "out/C.png" (by decide)

lemma le_foldr_max (a : ℚ) (t : List ℚ) : a ≤ t.foldr max a := by
  induction t with
  | nil => exact le_refl a
  | cons b t2 ih => exact le_trans ih (le_max_right b _)

lemma mem_le_foldr_max (a x : ℚ) (t : List ℚ) (hx : x ∈ t) :
    x ≤ t.foldr max a := by
  induction t with
  | nil => exact absurd hx (List.not_mem_nil x)
  | cons b t2 ih =>
      rcases List.mem_cons.mp hx with h | h
      · rw [h]; exact le_max_left b _
      · exact le_trans (ih h) (le_max_right b _)

lemma foldr_max_mem (a : ℚ) (t : List ℚ) : t.foldr max a ∈ a :: t := by
  induction t generalizing a with
  | nil => exact List.mem_singleton.mpr rfl
  | cons b t2 ih =>
      rcases max_choice b (t2.foldr max a) with h | h
      · rw [List.foldr_cons, h]
        exact List.mem_cons_of_mem a (List.mem_cons_self b t2)
      · rw [List.foldr_cons, h]
        rcases List.mem_cons.mp (ih a) with h2 | h2
        · rw [h2]; exact List.mem_cons_self a _
        · exact List.mem_cons_of_mem a (List.mem_cons_of_mem b h2)

lemma colMax_spec (l : List ℚ) (h : l ≠ []) :
    colMax l ∈ l ∧ ∀ x ∈ l, x ≤ colMax l := by
  cases l with
  | nil => exact absurd rfl h
  | cons a t =>
      constructor
      · exact foldr_max_mem a t
      · intro x hx
        rcases List.mem_cons.mp hx with h2 | h2
        · rw [h2]; exact le_foldr_max a t
        · exact mem_le_foldr_max a x t h2

/-- C9: for a non-empty two-column spatial table, `transform_coordinates`
keeps the number of rows and maps row (x, y) to
(max of original column 1 - y, max of original column 0 - x), where
`colMax` is shown to be the genuine maximum of the respective original
column. -/
theorem C9_transform_coordinates (coords : List (ℚ × ℚ)) (hne : coords ≠ []) :
    (transform_coordinates coords).length = coords.length ∧
    (∀ i p, coords.get? i = some p →
      (transform_coordinates coords).get? i =
        some (colMax (coords.map (fun q => q.2)) - p.2,
              colMax (coords.map (fun q => q.1)) - p.1)) ∧
    (colMax (coords.map (fun q => q.1)) ∈ coords.map (fun q => q.1) ∧
      ∀ x ∈ coords.map (fun q => q.1), x ≤ colMax (coords.map (fun q => q.1))) ∧
    (colMax (coords.map (fun q => q.2)) ∈ coords.map (fun q => q.2) ∧
      ∀ y ∈ coords.map (fun q => q.2), y ≤ colMax (coords.map (fun q => q.2))) := by
  have hmap1 : ((coords.map (fun p => (p.2, p.1))).map Prod.snd) =
      coords.map (fun q => q.1) := by
    rw [List.map_map]; rfl
  refine ⟨?_, ?_, ?_, ?_⟩
  · simp [transform_coordinates]
  · intro i p hp
    simp only [transform_coordinates]
    rw [List.get?_map, List.get?_map, List.get?_map, hp]
    simp only [Option.map_some']
    rw [hmap1]
    have hmap0 : (((coords.map (fun p => (p.2, p.1))).map
        (fun p => (p.1, colMax (coords.map (fun q => q.1)) - p.2))).map
          Prod.fst) = coords.map (fun q => q.2) := by
      rw [List.map_map, List.map_map]; rfl
    rw [hmap0]
  · exact colMax_spec _ (by simpa using hne)
  · exact colMax_spec _ (by simpa using hne)

/-- Witness for C9: the two-row table ((1, 2), (3, 4)) is transformed to
((max column 1 - y, max column 0 - x)) per row with row count preserved. -/
theorem C9_transform_coordinates_witness :
    (transform_coordinates [((1 : ℚ), (2 : ℚ)), (3, 4)]).length =
      ([((1 : ℚ), (2 : ℚ)), (3, 4)] : List (ℚ × ℚ)).length ∧
    (∀ i p, ([((1 : ℚ), (2 : ℚ)), (3, 4)] : List (ℚ × ℚ)).get? i = some p →
      (transform_coordinates [((1 : ℚ), (2 : ℚ)), (3, 4)]).get? i =
        some (colMax (([((1 : ℚ), (2 : ℚ)), (3, 4)] : List (ℚ × ℚ)).map
                (fun q => q.2)) - p.2,
              colMax (([((1 : ℚ), (2 : ℚ)), (3, 4)] : List (ℚ × ℚ)).map
                (fun q => q.1)) - p.1)) ∧
    (colMax (([((1 : ℚ), (2 : ℚ)), (3, 4)] : List (ℚ × ℚ)).map (fun q => q.1)) ∈
        ([((1 : ℚ), (2 : ℚ)), (3, 4)] : List (ℚ × ℚ)).map (fun q => q.1) ∧
      ∀ x ∈ ([((1 : ℚ), (2 : ℚ)), (3, 4)] : List (ℚ × ℚ)).map (fun q => q.1),
        x ≤ colMax (([((1 : ℚ), (2 : ℚ)), (3, 4)] : List (ℚ × ℚ)).map
          (fun q => q.1))) ∧
    (colMax (([((1 : ℚ), (2 : ℚ)), (3, 4)] : List (ℚ × ℚ)).map (fun q => q.2)) ∈
        ([((1 : ℚ), (2 : ℚ)), (3, 4)] : List (ℚ × ℚ)).map (fun q => q.2) ∧
      ∀ y ∈ ([((1 : ℚ), (2 : ℚ)), (3, 4)] : List (ℚ × ℚ)).map (fun q => q.2),
        y ≤ colMax (([((1 : ℚ), (2 : ℚ)), (3, 4)] : List (ℚ × ℚ)).map
          (fun q => q.2))) :=
  C9_transform_coordinates [((1 : ℚ), (2 : ℚ)), (3, 4)] (by simp)

end SPIXAnalysis
